import Mathlib

/-!
Verification of the xenomint `State` engine (CovenantSQL).

This file gives a shallow embedding of the `State` type and its operations
from `xenomint/state.go`: the log counter, the savepoint manager, the write
path, the single-request replay path, the read path and the block committer.
The SQL backend and the query translator are external collaborators; they are
abstracted as an `Env` of oracles (per-query translation result, execution
result, read result, and success flags for commit/begin).  The query pool is
not part of the provided sources; its operations are modelled from the
specification's contracts (section 4.2) and marked as such.
-/

deriving instance DecidableEq for Except

namespace Xenomint

/-- Query type tag of a request: Read, Write, or anything else (invalid). -/
inductive QueryType where
  | read
  | write
  | invalid
deriving DecidableEq

/-- A single SQL query: statement pattern (arguments are abstracted away,
the execution outcome is supplied by the environment oracles). -/
structure Query where
  pattern : String
deriving DecidableEq

/-- A request: a batch of queries sharing one query type. -/
structure Request where
  queryType : QueryType
  queries : List Query
deriving DecidableEq

/-- Response header fields relevant to the state engine. -/
structure Response where
  logOffset : Nat
  rowCount : Nat
  affectedRows : Int
  lastInsertID : Int
deriving DecidableEq

/-- A `QueryTracker`: a request together with an optional response. -/
structure QueryTracker where
  req : Request
  resp : Option Response
deriving DecidableEq

/-- Result of a successful statement execution (`sql.Result`). -/
structure ExecResult where
  rowsAffected : Int
  lastInsertID : Int
deriving DecidableEq, Inhabited

/-- Result of a successful read query: column names, declared types and the
number of data rows returned. -/
structure ReadRes where
  cols : List String
  decltypes : List String
  rows : Nat
deriving DecidableEq

/-- Commands issued to the open write transaction `s.unc`; we keep them as a
log so that savepoint/rollback behaviour is observable. -/
inductive TxCmd where
  | savepoint (id : Nat)
  | rollbackTo (id : Nat)
  | exec (q : Query)
deriving DecidableEq

/-- The external environment: the query translator
(`convertQueryAndBuildArgs`, returning the DDL flag and the rewritten
pattern, or failing), the backend executor on the write transaction, the two
read queriers (write transaction and dirty reader), and success flags for
opening a dirty read transaction and for commit/begin of the writer. -/
structure Env where
  translate : Query → Option (Bool × String)
  exec : Query → Option ExecResult
  readUnc : Query → Option ReadRes
  readDirty : Query → Option ReadRes
  dirtyBeginOk : Bool
  commitOk : Bool
  beginOk : Bool

/-- Modelled from the spec: the query pool (its implementation is not among
the provided sources).  An ordered mapping from savepoint id to tracker,
plus a set of failed requests (spec section 4.2). -/
structure Pool where
  queries : List (Nat × QueryTracker)
  failed : List Request
deriving DecidableEq

/-- Modelled from the spec: `newPool` returns an empty pool. -/
def newPool : Pool := ⟨[], []⟩

/-- Modelled from the spec: `pool.enqueue(savepoint, tracker)` appends to the
ordered map under `savepoint`. -/
def Pool.enqueue (p : Pool) (sp : Nat) (tr : QueryTracker) : Pool :=
  { p with queries := p.queries ++ [(sp, tr)] }

/-- Modelled from the spec: `pool.setFailed(request)` adds to the failed set;
idempotent on equal request identity. -/
def Pool.setFailed (p : Pool) (r : Request) : Pool :=
  if r ∈ p.failed then p else { p with failed := p.failed ++ [r] }

/-- Modelled from the spec: `pool.removeFailed(request)` drops the request
from the failed set. -/
def Pool.removeFailed (p : Pool) (r : Request) : Pool :=
  { p with failed := p.failed.filter (fun x => x ≠ r) }

/-- Modelled from the spec: `pool.match(savepoint, request)` is true iff a
tracker at `savepoint` exists and its request equals the given request. -/
def Pool.matchReq (p : Pool) (sp : Nat) (r : Request) : Bool :=
  p.queries.any (fun e => e.1 = sp && e.2.req = r)

/-- Modelled from the spec: `pool.matchLast(savepoint)` is true iff the
highest-keyed savepoint in the pool equals `savepoint`. -/
def Pool.matchLast (p : Pool) (sp : Nat) : Bool :=
  match p.queries.getLast? with
  | some e => e.1 = sp
  | none => false

/-- Modelled from the spec: `pool.truncate(upTo)` removes all trackers with
key at most `upTo`. -/
def Pool.truncate (p : Pool) (upTo : Nat) : Pool :=
  { p with queries := p.queries.filter (fun e => ¬ e.1 ≤ upTo) }

/-- Errors surfaced by the state engine, mirroring the error values and the
wrapping (`errors.Wrapf`) done in the source. -/
inductive XErr where
  | missingParent
  | queryConflict
  | queryConflictAt (localId replayId : Nat)
  | invalidRequest
  | invalidRequestAt (i j : Nat)
  | execFailedAt (i : Nat)
  | queryFailedAt (i : Nat)
  | blockExecFailedAt (i j : Nat)
  | openTxFailed
  | commitFailed
  | beginFailed
deriving DecidableEq

/-- The xenomint `State`: pool, the three counters, the schema-change flag,
the command log of the open write transaction, and a count of commits of the
underlying transaction (to observe commit occurrences). -/
structure State where
  pool : Pool
  origin : Nat
  cmpoint : Nat
  current : Nat
  hasSchemaChange : Bool
  tx : List TxCmd
  commitCount : Nat
deriving DecidableEq

/-- `getID` returns the current counter value (`atomic.LoadUint64`). -/
def getID (s : State) : Nat := s.current

/-- `incSeq` advances the counter by one. -/
def incSeq (s : State) : State := { s with current := s.current + 1 }

/-- `rollbackID` stores `id` into the counter. -/
def rollbackID (s : State) (id : Nat) : State := { s with current := id }

/-- `setNextTxID` sets `origin` and `cmpoint` to the current id. -/
def setNextTxID (s : State) : State :=
  { s with origin := getID s, cmpoint := getID s }

/-- `setCommitPoint` sets `cmpoint` to the current id. -/
def setCommitPoint (s : State) : State := { s with cmpoint := getID s }

/-- `setSavepoint` reads the counter and issues `SAVEPOINT "<id>"` against
the open write transaction; returns the id.  Does not advance the counter. -/
def setSavepoint (s : State) : Nat × State :=
  (getID s, { s with tx := s.tx ++ [TxCmd.savepoint (getID s)] })

/-- `rollbackTo` stores the savepoint id into the counter and issues
`ROLLBACK TO "<id>"`. -/
def rollbackTo (s : State) (sp : Nat) : State :=
  { rollbackID s sp with tx := s.tx ++ [TxCmd.rollbackTo sp] }

/-- `uncCommit` commits the open write transaction and resets the
schema-change flag; fails when the backend commit fails. -/
def uncCommit (env : Env) (s : State) : Option State :=
  if env.commitOk then
    some { s with commitCount := s.commitCount + 1, hasSchemaChange := false }
  else none

/-- `writeSingle` translates and executes one query on the write transaction;
on success it raises the schema-change flag if the statement contains DDL and
advances the counter.  Failure (of translation or execution) leaves the state
unchanged. -/
def writeSingle (env : Env) (s : State) (q : Query) : Option ExecResult × State :=
  match env.translate q with
  | none => (none, s)
  | some (containsDDL, _) =>
    match env.exec q with
    | none => (none, s)
    | some res =>
      let s1 := { s with tx := s.tx ++ [TxCmd.exec q] }
      let s2 := if containsDDL then { s1 with hasSchemaChange := true } else s1
      (some res, incSeq s2)

/-- Combined translation-and-execution outcome of a single query: the result
`writeSingle` observes from the backend. -/
def execResOf (env : Env) (q : Query) : Option ExecResult :=
  match env.translate q with
  | none => none
  | some _ => env.exec q

/-- DDL flag of a query as reported by the translator (false when
translation fails). -/
def ddlOf (env : Env) (q : Query) : Bool :=
  match env.translate q with
  | none => false
  | some (b, _) => b

/-- The per-query loop of the write path: executes the queries in order via
`writeSingle`, accumulating total affected rows and the last insert id; on
the first failure returns the failing query's index together with the state
at that point. -/
def writeQueries (env : Env) (qs : List Query) (i : Nat) (s : State)
    (total lastIns : Int) : Except Nat (Int × Int) × State :=
  match qs with
  | [] => (Except.ok (total, lastIns), s)
  | q :: rest =>
    match writeSingle env s q with
    | (none, s1) => (Except.error i, s1)
    | (some res, s1) =>
      writeQueries env rest (i + 1) s1 (total + res.rowsAffected) res.lastInsertID

/-- The write path (`State.write`): snapshot the savepoint, execute all
queries; on failure add the request to the failed set, roll back to the
snapshot and return a wrapped error; on success issue a new savepoint,
enqueue the tracker under the snapshot and build the response. -/
def write (env : Env) (s : State) (req : Request) :
    Except XErr (QueryTracker × Response) × State :=
  let savepoint := getID s
  match writeQueries env req.queries 0 s 0 0 with
  | (Except.error i, s1) =>
    let s2 := { s1 with pool := s1.pool.setFailed req }
    (Except.error (XErr.execFailedAt i), rollbackTo s2 savepoint)
  | (Except.ok (total, lastIns), s1) =>
    let s2 := (setSavepoint s1).2
    let s3 := { s2 with pool := s2.pool.enqueue savepoint ⟨req, none⟩ }
    (Except.ok (⟨req, none⟩,
      { logOffset := savepoint, rowCount := 0,
        affectedRows := total, lastInsertID := lastIns }), s3)

/-- The single-request replay path (`State.replay`): requires the supplied
response's log offset to equal the current counter (returning a wrapped
`ErrQueryConflict` otherwise), then executes the queries; on failure rolls
back to the snapshot; on success issues a savepoint and enqueues the tracker
(with the supplied response) under the snapshot. -/
def replay (env : Env) (s : State) (req : Request) (resp : Response) :
    Option XErr × State :=
  let savepoint := getID s
  if resp.logOffset ≠ savepoint then
    (some (XErr.queryConflictAt savepoint resp.logOffset), s)
  else
    match writeQueries env req.queries 0 s 0 0 with
    | (Except.error i, s1) => (some (XErr.execFailedAt i), rollbackTo s1 savepoint)
    | (Except.ok _, s1) =>
      let s2 := (setSavepoint s1).2
      (none, { s2 with pool := s2.pool.enqueue savepoint ⟨req, some resp⟩ })

/-- `ReplayWithContext` dispatch: read requests are silently ignored, write
requests go to `replay`, anything else is an invalid request. -/
def ReplayWithContext (env : Env) (s : State) (req : Request) (resp : Response) :
    Option XErr × State :=
  match req.queryType with
  | QueryType.read => (none, s)
  | QueryType.write => replay env s req resp
  | QueryType.invalid => (some XErr.invalidRequest, s)

/-- The read loop of `readTx`/`readSingle`: runs each query through the given
querier, keeping the last query's result; on the first failure returns the
failing query's index. -/
def readLoop (f : Query → Option ReadRes) (i : Nat) (qs : List Query)
    (acc : ReadRes) : Except Nat ReadRes :=
  match qs with
  | [] => Except.ok acc
  | q :: rest =>
    match f q with
    | none => Except.error i
    | some r => readLoop f (i + 1) rest r

/-- The read path (`State.readTx`).  With the schema-change flag raised:
snapshot the counter, issue a savepoint, run the queries on the open write
transaction, and unconditionally roll back to the snapshot.  Otherwise: run
the queries on a dirty-reader transaction (never committed; its opening may
fail).  The response's log offset is the snapshot taken when reads started;
a per-query failure adds the request to the failed set. -/
def readTx (env : Env) (s : State) (req : Request) :
    Except XErr Response × State :=
  if s.hasSchemaChange then
    let id := getID s
    let s1 := (setSavepoint s).2
    match readLoop env.readUnc 0 req.queries ⟨[], [], 0⟩ with
    | Except.error i =>
      let s2 := { s1 with pool := s1.pool.setFailed req }
      (Except.error (XErr.queryFailedAt i), rollbackTo s2 id)
    | Except.ok r =>
      (Except.ok { logOffset := id, rowCount := r.rows,
                   affectedRows := 0, lastInsertID := 0 }, rollbackTo s1 id)
  else
    let id := getID s
    if env.dirtyBeginOk then
      match readLoop env.readDirty 0 req.queries ⟨[], [], 0⟩ with
      | Except.error i =>
        (Except.error (XErr.queryFailedAt i), { s with pool := s.pool.setFailed req })
      | Except.ok r =>
        (Except.ok { logOffset := id, rowCount := r.rows,
                     affectedRows := 0, lastInsertID := 0 }, s)
    else (Except.error XErr.openTxFailed, s)

/-- `QueryWithContext` dispatch: read requests go to `readTx`, write requests
to `write`, anything else is an invalid request. -/
def QueryWithContext (env : Env) (s : State) (req : Request) :
    Except XErr (Option QueryTracker × Option Response) × State :=
  match req.queryType with
  | QueryType.read =>
    match readTx env s req with
    | (Except.error e, s1) => (Except.error e, s1)
    | (Except.ok r, s1) => (Except.ok (some ⟨req, none⟩, some r), s1)
  | QueryType.write =>
    match write env s req with
    | (Except.error e, s1) => (Except.error e, s1)
    | (Except.ok (tr, r), s1) => (Except.ok (some tr, some r), s1)
  | QueryType.invalid => (Except.error XErr.invalidRequest, s)

/-- A block: ordered query transactions (request with its original response)
plus the failed requests to purge from pools. -/
structure Block where
  queryTxs : List (Request × Response)
  failedReqs : List Request
deriving DecidableEq

/-- The inner per-query loop of a block entry replay: read-type requests skip
every query, non-write non-read types fail with a wrapped invalid-request
error, and write queries are executed via `writeSingle`, failing with the
entry and query indices on the first execution error. -/
def replayEntryQueries (env : Env) (i j : Nat) (qt : QueryType)
    (qs : List Query) (s : State) : Option XErr × State :=
  match qs with
  | [] => (none, s)
  | q :: rest =>
    if qt = QueryType.read then replayEntryQueries env i (j + 1) qt rest s
    else if qt ≠ QueryType.write then (some (XErr.invalidRequestAt i j), s)
    else
      match writeSingle env s q with
      | (none, s1) => (some (XErr.blockExecFailedAt i j), s1)
      | (some _, s1) => replayEntryQueries env i (j + 1) qt rest s1

/-- The reconciliation loop of `ReplayBlockWithContext`: for each block entry
compare its log offset against the current counter; ahead results in
`ErrMissingParent`, behind requires a pool match (skipping) or results in
`ErrQueryConflict`, and equality replays the entry's queries, rolling back to
the iteration savepoint on failure, and otherwise issues a savepoint and
enqueues the tracker.  Returns the error (if any), the final state and the
last iteration savepoint. -/
def replayBlockLoop (env : Env) (i : Nat) (entries : List (Request × Response))
    (s : State) (lastsp : Nat) : Option XErr × State × Nat :=
  match entries with
  | [] => (none, s, lastsp)
  | (req, resp) :: rest =>
    let sp := getID s
    if resp.logOffset > sp then (some XErr.missingParent, s, sp)
    else if resp.logOffset < sp then
      if s.pool.matchReq resp.logOffset req then replayBlockLoop env (i + 1) rest s sp
      else (some XErr.queryConflict, s, sp)
    else
      match replayEntryQueries env i 0 req.queryType req.queries s with
      | (some e, s1) => (some e, rollbackTo s1 sp, sp)
      | (none, s1) =>
        let s2 := (setSavepoint s1).2
        let s3 := { s2 with pool := s2.pool.enqueue sp ⟨req, some resp⟩ }
        replayBlockLoop env (i + 1) rest s3 sp

/-- Removal of the block-reported failed requests from the local pool. -/
def removeFailedAll (s : State) (rs : List Request) : State :=
  rs.foldl (fun st r => { st with pool := st.pool.removeFailed r }) s

/-- The finalization phase of `ReplayBlockWithContext`: when the pool's last
savepoint matches the last applied offset, commit the underlying transaction,
open a fresh one and set the next transaction id; otherwise only set the
commit point.  In either case issue a savepoint and truncate the pool. -/
def replayBlockFinalize (env : Env) (s : State) (lastsp : Nat) :
    Option XErr × State :=
  if s.pool.matchLast lastsp then
    match uncCommit env s with
    | none => (some XErr.commitFailed, s)
    | some s1 =>
      if env.beginOk then
        let s2 := setNextTxID { s1 with tx := [] }
        let s3 := (setSavepoint s2).2
        (none, { s3 with pool := s3.pool.truncate lastsp })
      else (some XErr.beginFailed, s1)
  else
    let s1 := setCommitPoint s
    let s2 := (setSavepoint s1).2
    (none, { s2 with pool := s2.pool.truncate lastsp })

/-- `ReplayBlockWithContext`: run the reconciliation loop, purge the
block-reported failed requests, then finalize. -/
def ReplayBlockWithContext (env : Env) (s : State) (block : Block) :
    Option XErr × State :=
  match replayBlockLoop env 0 block.queryTxs s 0 with
  | (some e, s1, _) => (some e, s1)
  | (none, s1, lastsp) => replayBlockFinalize env (removeFailedAll s1 block.failedReqs) lastsp

/-- A fold of the write path over a list of requests (state part only). -/
def applyWrites (env : Env) (s : State) (reqs : List Request) : State :=
  reqs.foldl (fun st r => (write env st r).2) s

/-! ### Concrete instances used for evaluation -/

/-- A sample write statement. -/
def qA : Query := ⟨"INSERT INTO t VALUES (1)"⟩

/-- A second sample write statement. -/
def qB : Query := ⟨"UPDATE t SET x = 2"⟩

/-- An environment in which every operation succeeds: non-DDL translation,
execution affecting one row with last insert id 7. -/
def envOk : Env :=
  ⟨fun _ => some (false, "p"), fun _ => some ⟨1, 7⟩,
   fun _ => some ⟨[], [], 2⟩, fun _ => some ⟨[], [], 3⟩, true, true, true⟩

/-- An environment in which translation succeeds but every execution and
every read fails. -/
def envFail : Env :=
  ⟨fun _ => some (false, "p"), fun _ => none, fun _ => none, fun _ => none,
   true, true, true⟩

/-- A fresh state whose counters all sit at `n`, with an empty pool. -/
def st (n : Nat) : State := ⟨newPool, n, n, n, false, [], 0⟩

/-- A write request with one query. -/
def reqW1 : Request := ⟨QueryType.write, [qA]⟩

/-- A write request with two queries. -/
def reqW2 : Request := ⟨QueryType.write, [qA, qB]⟩

/-- A read request with one query. -/
def reqR1 : Request := ⟨QueryType.read, [qA]⟩

/-- A response header carrying only a log offset. -/
def respAt (n : Nat) : Response := ⟨n, 0, 0, 0⟩

/-! ### Characterization lemmas -/

/-- `writeSingle` in terms of the combined execution outcome. -/
theorem writeSingle_char (env : Env) (s : State) (q : Query) :
    writeSingle env s q =
      match execResOf env q with
      | none => (none, s)
      | some res =>
        (some res,
          { s with
              tx := s.tx ++ [TxCmd.exec q],
              hasSchemaChange := s.hasSchemaChange || ddlOf env q,
              current := s.current + 1 }) := by
  unfold writeSingle execResOf ddlOf
  cases htr : env.translate q with
  | none => rfl
  | some p =>
    obtain ⟨b, pat⟩ := p
    cases hex : env.exec q with
    | none => rfl
    | some res => cases b <;> simp [incSeq]

/-- Appending a single element determines the last element of a list. -/
theorem getLast?_append_singleton {α : Type} (l : List α) (a : α) :
    (l ++ [a]).getLast? = some a := by
  induction l with
  | nil => rfl
  | cons x xs ih => rw [List.cons_append, List.getLast?_cons, ih]; rfl

/-- One unfolding step of the write-path query loop. -/
theorem writeQueries_cons (env : Env) (q : Query) (rest : List Query)
    (j : Nat) (s : State) (total lastIns : Int) :
    writeQueries env (q :: rest) j s total lastIns =
      match execResOf env q with
      | none => (Except.error j, s)
      | some res =>
        writeQueries env rest (j + 1)
          { s with
              tx := s.tx ++ [TxCmd.exec q],
              hasSchemaChange := s.hasSchemaChange || ddlOf env q,
              current := s.current + 1 }
          (total + res.rowsAffected) res.lastInsertID := by
  simp only [writeQueries]
  rw [writeSingle_char]
  cases execResOf env q <;> rfl

/-- The write-path query loop, on failure, reports the index of the first
failing query, leaves the pool, the commit count and the transaction-window
counters untouched, and stops at the state reached so far. -/
theorem writeQueries_err (env : Env) (qs : List Query) :
    ∀ j s total lastIns i s1,
      writeQueries env qs j s total lastIns = (Except.error i, s1) →
      s1.pool = s.pool ∧ s1.commitCount = s.commitCount ∧
      s1.origin = s.origin ∧ s1.cmpoint = s.cmpoint ∧
      ∃ pre q post, qs = pre ++ q :: post ∧ i = j + pre.length ∧
        (∀ p ∈ pre, (execResOf env p).isSome) ∧ execResOf env q = none := by
  induction qs with
  | nil =>
    intro j s total lastIns i s1 h
    simp [writeQueries] at h
  | cons q rest ih =>
    intro j s total lastIns i s1 h
    rw [writeQueries_cons] at h
    cases hex : execResOf env q with
    | none =>
      rw [hex] at h
      simp only [Prod.mk.injEq, Except.error.injEq] at h
      obtain ⟨hi, hs⟩ := h
      subst hi; subst hs
      exact ⟨rfl, rfl, rfl, rfl, [], q, rest, rfl, by simp, by simp, hex⟩
    | some res =>
      rw [hex] at h
      obtain ⟨hp, hc, ho, hm, pre, q', post, hqs, hi, hpre, hq'⟩ :=
        ih (j + 1) _ _ _ i s1 h
      refine ⟨hp, hc, ho, hm, q :: pre, q', post, by rw [hqs]; rfl, ?_, ?_, hq'⟩
      · rw [hi]; simp; omega
      · intro p hpm
        rcases List.mem_cons.mp hpm with h1 | h2
        · subst h1; rw [hex]; rfl
        · exact hpre p h2

/-- The write-path query loop, on success, advances the counter by the number
of queries, appends exactly the executed statements to the transaction log,
leaves the pool and remaining counters untouched, accumulates the total
affected rows, and ends with the last query's insert id. -/
theorem writeQueries_ok (env : Env) (qs : List Query) :
    ∀ j s total lastIns t' l' s1,
      writeQueries env qs j s total lastIns = (Except.ok (t', l'), s1) →
      s1.pool = s.pool ∧ s1.commitCount = s.commitCount ∧
      s1.origin = s.origin ∧ s1.cmpoint = s.cmpoint ∧
      s1.current = s.current + qs.length ∧
      s1.tx = s.tx ++ qs.map TxCmd.exec ∧
      t' = total + (qs.map (fun q => ((execResOf env q).getD default).rowsAffected)).sum ∧
      ((qs = [] ∧ l' = lastIns) ∨
        (∃ q res, qs.getLast? = some q ∧ execResOf env q = some res ∧
          l' = res.lastInsertID)) ∧
      (∀ q ∈ qs, (execResOf env q).isSome) := by
  induction qs with
  | nil =>
    intro j s total lastIns t' l' s1 h
    simp only [writeQueries, Prod.mk.injEq, Except.ok.injEq] at h
    obtain ⟨⟨ht, hl⟩, hs⟩ := h
    subst hs
    refine ⟨rfl, rfl, rfl, rfl, by simp, by simp, by simp [← ht], ?_, by simp⟩
    exact Or.inl ⟨rfl, hl.symm⟩
  | cons q rest ih =>
    intro j s total lastIns t' l' s1 h
    rw [writeQueries_cons] at h
    cases hex : execResOf env q with
    | none => rw [hex] at h; simp at h
    | some res =>
      rw [hex] at h
      obtain ⟨hp, hc, ho, hm, hcur, htx, ht, hl, hall⟩ := ih (j + 1) _ _ _ t' l' s1 h
      refine ⟨hp, hc, ho, hm, ?_, ?_, ?_, ?_, ?_⟩
      · rw [hcur]; simp; omega
      · rw [htx]; simp
      · rw [ht]; simp [hex, add_assoc]
      · rcases hl with ⟨hrest, hl'⟩ | ⟨q', res', hlast, hres', hl'⟩
        · subst hrest
          exact Or.inr ⟨q, res, rfl, hex, hl'⟩
        · refine Or.inr ⟨q', res', ?_, hres', hl'⟩
          cases rest with
          | nil => simp at hlast
          | cons b bs => rw [List.getLast?_cons_cons]; exact hlast
      · intro p hpm
        rcases List.mem_cons.mp hpm with h1 | h2
        · subst h1; rw [hex]; rfl
        · exact hall p h2

/-- A request is a member of the failed set it was added to. -/
theorem Pool.mem_setFailed (p : Pool) (r : Request) :
    r ∈ (p.setFailed r).failed := by
  unfold Pool.setFailed
  by_cases h : r ∈ p.failed
  · simp [h]
  · simp [h]

/-- The write path, on success, assigns the snapshot counter value as the
response's log offset. -/
theorem write_ok_logOffset (env : Env) (s : State) (req : Request)
    (tr : QueryTracker) (resp : Response) (s1 : State)
    (h : write env s req = (Except.ok (tr, resp), s1)) :
    resp.logOffset = getID s := by
  unfold write at h
  cases hw : writeQueries env req.queries 0 s 0 0 with
  | mk r s' =>
    rw [hw] at h
    cases r with
    | error i => simp at h
    | ok p =>
      obtain ⟨t, l⟩ := p
      simp only [Prod.mk.injEq, Except.ok.injEq] at h
      obtain ⟨⟨htr, hresp⟩, hst⟩ := h
      rw [← hresp]

/-! ### Claims -/

/-- C9: `writeSingle` advances the counter by exactly one iff the statement
executes successfully; on success the schema-change flag becomes the old
flag or-ed with the statement's DDL flag, so the flag is raised exactly when
the successfully executed statement contains DDL; on a translation or
execution failure the state (counter and flag included) is unchanged. -/
theorem writeSingle_counter_flag (env : Env) (s : State) (q : Query) :
    (∀ res s1, writeSingle env s q = (some res, s1) →
      s1.current = s.current + 1 ∧
      s1.hasSchemaChange = (s.hasSchemaChange || ddlOf env q)) ∧
    (∀ s1, writeSingle env s q = (none, s1) → s1 = s) := by
  rw [writeSingle_char]
  cases hex : execResOf env q with
  | none =>
    refine ⟨fun res s1 h => by simp at h, fun s1 h => by simp at h; exact h.symm⟩
  | some res =>
    refine ⟨fun res' s1 h => ?_, fun s1 h => by simp at h⟩
    simp only [Prod.mk.injEq, Option.some.injEq] at h
    rw [← h.2]
    exact ⟨rfl, rfl⟩

/-- Witness for C9 at a concrete input. -/
theorem writeSingle_counter_flag_witness :
    (writeSingle envOk (st 0) qA).2.current = (st 0).current + 1 ∧
    (writeSingle envOk (st 0) qA).2.hasSchemaChange
      = ((st 0).hasSchemaChange || ddlOf envOk qA) :=
  (writeSingle_counter_flag envOk (st 0) qA).1 ⟨1, 7⟩
    (writeSingle envOk (st 0) qA).2 (by decide)

/-- C1 (amended): for a single-request replay of a write request, any
mismatch between the current counter and the supplied response's log offset
-- in either direction -- returns a wrapped `ErrQueryConflict` carrying the
local and replaying ids, and the state (in particular the pool and the
counter) is left unchanged. -/
theorem Replay_offset_mismatch (env : Env) (s : State) (req : Request)
    (resp : Response) (hw : req.queryType = QueryType.write)
    (hne : resp.logOffset ≠ s.current) :
    ReplayWithContext env s req resp
      = (some (XErr.queryConflictAt s.current resp.logOffset), s) := by
  unfold ReplayWithContext
  rw [hw]
  unfold replay getID
  simp [hne]

/-- Witness for the amended C1 at a concrete input. -/
theorem Replay_offset_mismatch_witness :
    ReplayWithContext envOk (st 100) reqW1 (respAt 101)
      = (some (XErr.queryConflictAt 100 101), st 100) :=
  Replay_offset_mismatch envOk (st 100) reqW1 (respAt 101) (by decide) (by decide)

/-- C1 counterexample: with the counter at 100 and a replayed response at
log offset 105 (so current < offset), the replay of a write request returns
the wrapped query-conflict error, not the missing-parent error the claim
requires. -/
theorem Replay_behind_not_missingParent :
    (st 100).current < (respAt 105).logOffset ∧
    ReplayWithContext envOk (st 100) reqW1 (respAt 105)
      = (some (XErr.queryConflictAt 100 105), st 100) ∧
    (ReplayWithContext envOk (st 100) reqW1 (respAt 105)).1
      ≠ some XErr.missingParent := by decide

/-- C6: for any sequence of writes followed by `rollbackTo k`, a subsequent
read of the counter yields `k`, and the next write request that succeeds is
assigned log offset `k`. -/
theorem rollbackTo_roundtrip (env : Env) (s : State) (reqs : List Request)
    (k : Nat) (req : Request) :
    getID (rollbackTo (applyWrites env s reqs) k) = k ∧
    (∀ tr resp s1,
      write env (rollbackTo (applyWrites env s reqs) k) req
        = (Except.ok (tr, resp), s1) → resp.logOffset = k) := by
  refine ⟨rfl, fun tr resp s1 h => ?_⟩
  exact write_ok_logOffset env _ req tr resp s1 h

/-- C4: in the write path, on any per-query execution failure the counter
returns to its pre-request value via a rollback to the entry savepoint, the
request is added to the pool's failed set, no tracker is enqueued, and the
returned error carries the index of the first failing query. -/
theorem write_failure (env : Env) (s : State) (req : Request) (e : XErr)
    (s1 : State) (h : write env s req = (Except.error e, s1)) :
    s1.current = s.current ∧
    s1.pool.queries = s.pool.queries ∧
    s1.pool = s.pool.setFailed req ∧
    req ∈ s1.pool.failed ∧
    s1.tx.getLast? = some (TxCmd.rollbackTo s.current) ∧
    ∃ i, e = XErr.execFailedAt i ∧
      ∃ pre q post, req.queries = pre ++ q :: post ∧ i = pre.length ∧
        (∀ p ∈ pre, (execResOf env p).isSome) ∧ execResOf env q = none := by
  unfold write at h
  cases hw : writeQueries env req.queries 0 s 0 0 with
  | mk r s' =>
    rw [hw] at h
    cases r with
    | ok p => obtain ⟨t, l⟩ := p; simp at h
    | error i =>
      simp only [Prod.mk.injEq, Except.error.injEq] at h
      obtain ⟨he, hs⟩ := h
      obtain ⟨hp, hc, ho, hm, pre, q, post, hqs, hi, hpre, hq⟩ :=
        writeQueries_err env req.queries 0 s 0 0 i s' hw
      subst hs
      refine ⟨rfl, ?_, ?_, ?_, ?_, i, he.symm, pre, q, post, hqs, by omega, hpre, hq⟩
      · show ((s'.pool.setFailed req)).queries = s.pool.queries
        rw [hp]
        unfold Pool.setFailed
        by_cases hmem : req ∈ s.pool.failed <;> simp [hmem]
      · show s'.pool.setFailed req = s.pool.setFailed req
        rw [hp]
      · show req ∈ (s'.pool.setFailed req).failed
        exact Pool.mem_setFailed s'.pool req
      · exact getLast?_append_singleton _ _

/-- Witness for C4 at a concrete input. -/
theorem write_failure_witness :
    (write envFail (st 3) reqW2).2.current = (st 3).current ∧
    (write envFail (st 3) reqW2).2.pool.queries = (st 3).pool.queries ∧
    reqW2 ∈ (write envFail (st 3) reqW2).2.pool.failed := by
  have h := write_failure envFail (st 3) reqW2 (XErr.execFailedAt 0)
    (write envFail (st 3) reqW2).2 (by decide)
  exact ⟨h.1, h.2.1, h.2.2.2.1⟩

/-- C5: on a successful write request, the response's log offset is the
counter snapshotted before the first query executed, its affected-rows field
is the sum of affected rows over all queries, its last-insert-id is the value
produced by the final query, and its row count is 0; the tracker is enqueued
under the same log offset and a savepoint is issued at the advanced counter
value. -/
theorem write_success (env : Env) (s : State) (req : Request)
    (tr : QueryTracker) (resp : Response) (s1 : State)
    (h : write env s req = (Except.ok (tr, resp), s1)) :
    resp.logOffset = s.current ∧
    resp.rowCount = 0 ∧
    resp.affectedRows
      = (req.queries.map (fun q => ((execResOf env q).getD default).rowsAffected)).sum ∧
    ((req.queries = [] ∧ resp.lastInsertID = 0) ∨
      (∃ q res, req.queries.getLast? = some q ∧ execResOf env q = some res ∧
        resp.lastInsertID = res.lastInsertID)) ∧
    s1.pool.queries = s.pool.queries ++ [(s.current, ⟨req, none⟩)] ∧
    s1.current = s.current + req.queries.length ∧
    s1.tx.getLast? = some (TxCmd.savepoint s1.current) := by
  unfold write at h
  cases hw : writeQueries env req.queries 0 s 0 0 with
  | mk r s' =>
    rw [hw] at h
    cases r with
    | error i => simp at h
    | ok p =>
      obtain ⟨t, l⟩ := p
      simp only [Prod.mk.injEq, Except.ok.injEq] at h
      obtain ⟨⟨htr, hresp⟩, hst⟩ := h
      obtain ⟨hp, hc, ho, hm, hcur, htx, ht, hl, hall⟩ :=
        writeQueries_ok env req.queries 0 s 0 0 t l s' hw
      subst hst
      rw [← hresp]
      refine ⟨rfl, rfl, by rw [ht]; simp, ?_, ?_, ?_, ?_⟩
      · rcases hl with ⟨hq, hl'⟩ | ⟨q, res, hlast, hres, hl'⟩
        · exact Or.inl ⟨hq, hl'⟩
        · exact Or.inr ⟨q, res, hlast, hres, hl'⟩
      · show ((setSavepoint s').2.pool.enqueue (getID s) ⟨req, none⟩).queries
          = s.pool.queries ++ [(s.current, ⟨req, none⟩)]
        unfold Pool.enqueue setSavepoint
        simp [hp]
        rfl
      · show (setSavepoint s').2.current = s.current + req.queries.length
        unfold setSavepoint
        simpa using hcur
      · show ((setSavepoint s').2.tx).getLast? = some (TxCmd.savepoint _)
        unfold setSavepoint getID
        rw [getLast?_append_singleton]

/-- Witness for C5 at a concrete input. -/
theorem write_success_witness :
    ((⟨0, 0, 2, 7⟩ : Response)).logOffset = (st 0).current ∧
    (write envOk (st 0) reqW2).2.pool.queries
      = (st 0).pool.queries ++ [((st 0).current, ⟨reqW2, none⟩)] ∧
    (write envOk (st 0) reqW2).2.current = (st 0).current + reqW2.queries.length := by
  have h := write_success envOk (st 0) reqW2 ⟨reqW2, none⟩ ⟨0, 0, 2, 7⟩
    (write envOk (st 0) reqW2).2 (by decide)
  exact ⟨h.1, h.2.2.2.2.1, h.2.2.2.2.2.1⟩

/-- C8 (amended): in a single-request replay of a write request whose
response log offset equals the current counter, a per-query execution
failure rolls back to the entry savepoint, returns an error wrapped with the
failing query's index, and enqueues no tracker; the pool -- its failed set
included -- is left entirely unchanged (the replay path does not record the
request as failed). -/
theorem replay_failure (env : Env) (s : State) (req : Request)
    (resp : Response) (hw : req.queryType = QueryType.write)
    (hoff : resp.logOffset = s.current) (e : XErr) (s1 : State)
    (h : ReplayWithContext env s req resp = (some e, s1)) :
    s1.current = s.current ∧
    s1.pool = s.pool ∧
    s1.tx.getLast? = some (TxCmd.rollbackTo s.current) ∧
    ∃ i, e = XErr.execFailedAt i ∧
      ∃ pre q post, req.queries = pre ++ q :: post ∧ i = pre.length ∧
        (∀ p ∈ pre, (execResOf env p).isSome) ∧ execResOf env q = none := by
  unfold ReplayWithContext at h
  rw [hw] at h
  unfold replay getID at h
  rw [hoff] at h
  simp only [ne_eq, not_true_eq_false, if_false, ite_false] at h
  cases hq : writeQueries env req.queries 0 s 0 0 with
  | mk r s' =>
    rw [hq] at h
    cases r with
    | ok p =>
      obtain ⟨t, l⟩ := p
      simp at h
    | error i =>
      simp only [Prod.mk.injEq, Option.some.injEq] at h
      obtain ⟨he, hs⟩ := h
      obtain ⟨hp, hc, ho, hm, pre, q, post, hqs, hi, hpre, hq'⟩ :=
        writeQueries_err env req.queries 0 s 0 0 i s' hq
      subst hs
      refine ⟨rfl, hp, getLast?_append_singleton _ _, i, he.symm, pre, q, post,
        hqs, by omega, hpre, hq'⟩

/-- Witness for the amended C8 at a concrete input. -/
theorem replay_failure_witness :
    (ReplayWithContext envFail (st 0) reqW1 (respAt 0)).2.current = (st 0).current ∧
    (ReplayWithContext envFail (st 0) reqW1 (respAt 0)).2.pool = (st 0).pool := by
  have h := replay_failure envFail (st 0) reqW1 (respAt 0) (by decide) (by decide)
    (XErr.execFailedAt 0) (ReplayWithContext envFail (st 0) reqW1 (respAt 0)).2 (by decide)
  exact ⟨h.1, h.2.1⟩

/-- C8 counterexample: a failing single-request replay at the matching
offset does not record the request in the pool's failed set -- the failed
set stays empty, contradicting the claim. -/
theorem replay_error_leaves_failed_empty :
    (ReplayWithContext envFail (st 0) reqW1 (respAt 0)).1
      = some (XErr.execFailedAt 0) ∧
    (respAt 0).logOffset = (st 0).current ∧
    (ReplayWithContext envFail (st 0) reqW1 (respAt 0)).2.pool.failed = [] ∧
    ¬ reqW1 ∈ (ReplayWithContext envFail (st 0) reqW1 (respAt 0)).2.pool.failed := by
  decide

/-- Adding a request to the failed set does not touch the tracker map. -/
theorem Pool.setFailed_queries (p : Pool) (r : Request) :
    (p.setFailed r).queries = p.queries := by
  unfold Pool.setFailed
  by_cases h : r ∈ p.failed <;> simp [h]

/-- `readTx` with the schema-change flag raised: savepoint, reads on the
write transaction, unconditional rollback to the snapshot. -/
theorem readTx_char_flag (env : Env) (s : State) (req : Request)
    (hf : s.hasSchemaChange = true) :
    readTx env s req =
      match readLoop env.readUnc 0 req.queries ⟨[], [], 0⟩ with
      | Except.error i =>
        (Except.error (XErr.queryFailedAt i),
          { s with
              pool := s.pool.setFailed req,
              tx := s.tx ++ [TxCmd.savepoint s.current, TxCmd.rollbackTo s.current] })
      | Except.ok r =>
        (Except.ok ⟨s.current, r.rows, 0, 0⟩,
          { s with
              tx := s.tx ++ [TxCmd.savepoint s.current, TxCmd.rollbackTo s.current] }) := by
  unfold readTx
  rw [if_pos hf]
  cases hr : readLoop env.readUnc 0 req.queries ⟨[], [], 0⟩ with
  | error i =>
    unfold setSavepoint rollbackTo rollbackID getID
    simp [List.append_assoc]
  | ok r =>
    unfold setSavepoint rollbackTo rollbackID getID
    simp [List.append_assoc]

/-- `readTx` with the schema-change flag clear: reads on the dirty-reader
transaction, writer state untouched. -/
theorem readTx_char_noflag (env : Env) (s : State) (req : Request)
    (hf : s.hasSchemaChange = false) :
    readTx env s req =
      if env.dirtyBeginOk then
        match readLoop env.readDirty 0 req.queries ⟨[], [], 0⟩ with
        | Except.error i =>
          (Except.error (XErr.queryFailedAt i), { s with pool := s.pool.setFailed req })
        | Except.ok r => (Except.ok ⟨s.current, r.rows, 0, 0⟩, s)
      else (Except.error XErr.openTxFailed, s) := by
  unfold readTx
  rw [if_neg (by simp [hf])]
  rcases Bool.eq_false_or_eq_true env.dirtyBeginOk with hd | hd
  · rw [if_pos hd, if_pos hd]
    cases hr : readLoop env.readDirty 0 req.queries ⟨[], [], 0⟩ with
    | error i => unfold getID; simp
    | ok r => unfold getID; simp
  · rw [if_neg (by simp [hd]), if_neg (by simp [hd])]

/-- C7: read execution leaves the writer state unchanged.  With the
schema-change flag raised, `readTx` snapshots the counter, issues a
savepoint, runs the request's queries on the open write transaction and
unconditionally rolls back to the snapshot; with the flag clear it runs the
queries on the dirty-reader transaction, touching neither the transaction
log nor the commit count ("never committed").  In both cases a successful
response's log offset is the counter value when reads started. -/
theorem readTx_frame (env : Env) (s : State) (req : Request) :
    (readTx env s req).2.current = s.current ∧
    (readTx env s req).2.origin = s.origin ∧
    (readTx env s req).2.cmpoint = s.cmpoint ∧
    (readTx env s req).2.commitCount = s.commitCount ∧
    (readTx env s req).2.hasSchemaChange = s.hasSchemaChange ∧
    (readTx env s req).2.pool.queries = s.pool.queries ∧
    (s.hasSchemaChange = true →
      (readTx env s req).2.tx
        = s.tx ++ [TxCmd.savepoint s.current, TxCmd.rollbackTo s.current] ∧
      (∀ r, (readTx env s req).1 = Except.ok r →
        ∃ rr, readLoop env.readUnc 0 req.queries ⟨[], [], 0⟩ = Except.ok rr ∧
          r.logOffset = s.current ∧ r.rowCount = rr.rows)) ∧
    (s.hasSchemaChange = false →
      (readTx env s req).2.tx = s.tx ∧
      (∀ r, (readTx env s req).1 = Except.ok r →
        ∃ rr, readLoop env.readDirty 0 req.queries ⟨[], [], 0⟩ = Except.ok rr ∧
          r.logOffset = s.current ∧ r.rowCount = rr.rows)) := by
  rcases Bool.eq_false_or_eq_true s.hasSchemaChange with hf | hf
  · rw [readTx_char_flag env s req hf]
    cases hr : readLoop env.readUnc 0 req.queries ⟨[], [], 0⟩ with
    | error i =>
      refine ⟨rfl, rfl, rfl, rfl, rfl, Pool.setFailed_queries s.pool req, ?_, ?_⟩
      · intro _
        exact ⟨rfl, fun r h => by simp at h⟩
      · intro hff; rw [hf] at hff; exact absurd hff (by decide)
    | ok r =>
      refine ⟨rfl, rfl, rfl, rfl, rfl, rfl, ?_, ?_⟩
      · intro _
        refine ⟨rfl, fun r' h => ?_⟩
        simp only [Except.ok.injEq] at h
        exact ⟨r, rfl, by rw [← h], by rw [← h]⟩
      · intro hff; rw [hf] at hff; exact absurd hff (by decide)
  · rw [readTx_char_noflag env s req hf]
    rcases Bool.eq_false_or_eq_true env.dirtyBeginOk with hd | hd
    · rw [if_pos hd]
      cases hr : readLoop env.readDirty 0 req.queries ⟨[], [], 0⟩ with
      | error i =>
        refine ⟨rfl, rfl, rfl, rfl, rfl, Pool.setFailed_queries s.pool req, ?_, ?_⟩
        · intro hff; rw [hf] at hff; exact absurd hff (by decide)
        · intro _
          exact ⟨rfl, fun r h => by simp at h⟩
      | ok r =>
        refine ⟨rfl, rfl, rfl, rfl, rfl, rfl, ?_, ?_⟩
        · intro hff; rw [hf] at hff; exact absurd hff (by decide)
        · intro _
          refine ⟨rfl, fun r' h => ?_⟩
          simp only [Except.ok.injEq] at h
          exact ⟨r, rfl, by rw [← h], by rw [← h]⟩
    · rw [if_neg (by simp [hd])]
      refine ⟨rfl, rfl, rfl, rfl, rfl, rfl, ?_, ?_⟩
      · intro hff; rw [hf] at hff; exact absurd hff (by decide)
      · intro _
        exact ⟨rfl, fun r h => by simp at h⟩

/-- `writeSingle` never touches the pool, the commit count, or the
transaction-window counters. -/
theorem writeSingle_frame (env : Env) (s : State) (q : Query) :
    (writeSingle env s q).2.pool = s.pool ∧
    (writeSingle env s q).2.commitCount = s.commitCount := by
  rw [writeSingle_char]
  cases execResOf env q with
  | none => exact ⟨rfl, rfl⟩
  | some res => exact ⟨rfl, rfl⟩

/-- A read-typed block entry skips every one of its queries, leaving the
state untouched. -/
theorem replayEntryQueries_read (env : Env) (qs : List Query) :
    ∀ i j s, replayEntryQueries env i j QueryType.read qs s = (none, s) := by
  induction qs with
  | nil => intro i j s; rfl
  | cons q rest ih =>
    intro i j s
    simp only [replayEntryQueries]
    rw [if_pos trivial]
    exact ih i (j + 1) s

/-- The per-entry query loop of block replay never touches the pool or the
commit count. -/
theorem replayEntryQueries_frame (env : Env) (qs : List Query) :
    ∀ i j qt s,
      (replayEntryQueries env i j qt qs s).2.pool = s.pool ∧
      (replayEntryQueries env i j qt qs s).2.commitCount = s.commitCount := by
  induction qs with
  | nil => intro i j qt s; exact ⟨rfl, rfl⟩
  | cons q rest ih =>
    intro i j qt s
    simp only [replayEntryQueries]
    by_cases h1 : qt = QueryType.read
    · rw [if_pos h1]
      exact ih i (j + 1) qt s
    · rw [if_neg h1]
      by_cases h2 : qt = QueryType.write
      · rw [if_neg (by simp [h2])]
        rw [writeSingle_char]
        cases hex : execResOf env q with
        | none => exact ⟨rfl, rfl⟩
        | some res => exact ⟨(ih i (j + 1) qt _).1, (ih i (j + 1) qt _).2⟩
      · rw [if_pos (by simp [h2])]
        exact ⟨rfl, rfl⟩

/-- A write-typed block entry with all queries succeeding executes each of
them: the loop reports no error, advances the counter by the number of
queries and appends exactly the executed statements. -/
theorem replayEntryQueries_write_ok (env : Env) (qs : List Query) :
    ∀ i j s, (∀ q ∈ qs, (execResOf env q).isSome) →
      (replayEntryQueries env i j QueryType.write qs s).1 = none ∧
      (replayEntryQueries env i j QueryType.write qs s).2.current
        = s.current + qs.length ∧
      (replayEntryQueries env i j QueryType.write qs s).2.tx
        = s.tx ++ qs.map TxCmd.exec := by
  induction qs with
  | nil =>
    intro i j s _
    exact ⟨rfl, by simp [replayEntryQueries], by simp [replayEntryQueries]⟩
  | cons q rest ih =>
    intro i j s hall
    simp only [replayEntryQueries]
    rw [if_neg (by decide), if_neg (by decide)]
    rw [writeSingle_char]
    cases hex : execResOf env q with
    | none => exact absurd (hall q (by simp)) (by simp [hex])
    | some res =>
      have h := ih i (j + 1)
        { s with
            tx := s.tx ++ [TxCmd.exec q],
            hasSchemaChange := s.hasSchemaChange || ddlOf env q,
            current := s.current + 1 }
        (fun p hp => hall p (List.mem_cons_of_mem q hp))
      refine ⟨h.1, ?_, ?_⟩
      · rw [h.2.1]; simp; omega
      · rw [h.2.2]; simp

/-- The reconciliation loop never commits the underlying transaction. -/
theorem replayBlockLoop_commitCount (env : Env)
    (entries : List (Request × Response)) :
    ∀ i s l, (replayBlockLoop env i entries s l).2.1.commitCount
      = s.commitCount := by
  induction entries with
  | nil => intro i s l; rfl
  | cons e rest ih =>
    obtain ⟨req, resp⟩ := e
    intro i s l
    simp only [replayBlockLoop]
    by_cases h1 : resp.logOffset > getID s
    · rw [if_pos h1]
    · rw [if_neg h1]
      by_cases h2 : resp.logOffset < getID s
      · rw [if_pos h2]
        by_cases h3 : s.pool.matchReq resp.logOffset req = true
        · rw [if_pos h3]
          exact ih (i + 1) s (getID s)
        · rw [if_neg h3]
      · rw [if_neg h2]
        cases hq : replayEntryQueries env i 0 req.queryType req.queries s with
        | mk oe s1 =>
          have hfr := replayEntryQueries_frame env req.queries i 0 req.queryType s
          rw [hq] at hfr
          cases oe with
          | some e' => exact hfr.2
          | none => exact (ih (i + 1) _ (getID s)).trans hfr.2

/-- C2 (amended): for a block entry with response offset O and iteration
counter value S: if O > S the call returns MissingParent; if O < S the entry
is skipped when the pool holds a matching tracker at O and otherwise the
call returns QueryConflict; if O = S and the entry's request is write-typed,
its queries are executed (advancing the counter by their number when all
succeed), and on any per-query failure the state rolls back to S and the
whole `ReplayBlock` call fails without committing anything. -/
theorem ReplayBlock_entry_trichotomy (env : Env) (s : State) (l i : Nat)
    (req : Request) (resp : Response) (rest : List (Request × Response)) :
    (resp.logOffset > s.current →
      replayBlockLoop env i ((req, resp) :: rest) s l
        = (some XErr.missingParent, s, s.current)) ∧
    (resp.logOffset < s.current → s.pool.matchReq resp.logOffset req = true →
      replayBlockLoop env i ((req, resp) :: rest) s l
        = replayBlockLoop env (i + 1) rest s s.current) ∧
    (resp.logOffset < s.current → s.pool.matchReq resp.logOffset req = false →
      replayBlockLoop env i ((req, resp) :: rest) s l
        = (some XErr.queryConflict, s, s.current)) ∧
    (req.queryType = QueryType.write →
      (∀ q ∈ req.queries, (execResOf env q).isSome) →
      (replayEntryQueries env i 0 req.queryType req.queries s).1 = none ∧
      (replayEntryQueries env i 0 req.queryType req.queries s).2.current
        = s.current + req.queries.length) ∧
    (∀ e s1, resp.logOffset = s.current →
      replayEntryQueries env i 0 req.queryType req.queries s = (some e, s1) →
      replayBlockLoop env i ((req, resp) :: rest) s l
        = (some e, rollbackTo s1 s.current, s.current) ∧
      (rollbackTo s1 s.current).current = s.current) ∧
    (∀ block e s1 lsp,
      replayBlockLoop env 0 block.queryTxs s 0 = (some e, s1, lsp) →
      ReplayBlockWithContext env s block = (some e, s1) ∧
      s1.commitCount = s.commitCount) := by
  refine ⟨?_, ?_, ?_, ?_, ?_, ?_⟩
  · intro h
    simp only [replayBlockLoop, getID]
    rw [if_pos h]
  · intro h hm
    simp only [replayBlockLoop, getID]
    rw [if_neg (by omega), if_pos h, if_pos hm]
  · intro h hm
    simp only [replayBlockLoop, getID]
    rw [if_neg (by omega), if_pos h, if_neg (by simp [hm])]
  · intro hw hall
    rw [hw]
    exact ⟨(replayEntryQueries_write_ok env req.queries i 0 s hall).1,
      (replayEntryQueries_write_ok env req.queries i 0 s hall).2.1⟩
  · intro e s1 hoff hq
    constructor
    · simp only [replayBlockLoop, getID]
      rw [if_neg (by omega), if_neg (by omega), hq]
    · rfl
  · intro block e s1 lsp h
    refine ⟨?_, ?_⟩
    · unfold ReplayBlockWithContext
      rw [h]
    · have hcc := replayBlockLoop_commitCount env block.queryTxs 0 s 0
      rw [h] at hcc
      exact hcc

/-- Witness for the amended C2 at concrete inputs. -/
theorem ReplayBlock_entry_trichotomy_witness :
    replayBlockLoop envOk 0 [(reqW1, respAt 7)] (st 5) 0
      = (some XErr.missingParent, st 5, (st 5).current) ∧
    ReplayBlockWithContext envOk (st 5) ⟨[(reqW1, respAt 7)], []⟩
      = (some XErr.missingParent, st 5) := by
  have h := ReplayBlock_entry_trichotomy envOk (st 5) 0 0 reqW1 (respAt 7) []
  have h1 := h.1 (by decide)
  refine ⟨h1, ?_⟩
  have h6 := h.2.2.2.2.2 ⟨[(reqW1, respAt 7)], []⟩ XErr.missingParent (st 5)
    (st 5).current h1
  exact h6.1

/-- C2 counterexample: a read-typed block entry at the matching offset does
not execute its queries -- with an environment in which every execution
fails, the block still replays successfully and the counter is unchanged,
while the claim (queries executed, failure aborts the call) would demand a
failed call. -/
theorem ReplayBlock_skips_read_queries :
    envFail.exec qA = none ∧
    (respAt 5).logOffset = (st 5).current ∧
    reqR1.queries = [qA] ∧
    (ReplayBlockWithContext envFail (st 5) ⟨[(reqR1, respAt 5)], []⟩).1 = none ∧
    (ReplayBlockWithContext envFail (st 5) ⟨[(reqR1, respAt 5)], []⟩).2.current
      = (st 5).current := by decide

/-- C3: after the reconciliation loop (returning no error, final state `s1`,
last savepoint `lastsp`) and the failed-request purge (yielding `s2`), if
the pool's highest savepoint equals `lastsp` then the underlying transaction
is committed, a fresh one is opened, origin and cmpoint are set to current
and the schema-change flag is cleared; otherwise no commit occurs and only
cmpoint is set to current; in either case a savepoint is issued at the
current id and the pool is truncated at `lastsp`. -/
theorem ReplayBlock_finalize (env : Env) (s : State) (block : Block)
    (s1 : State) (lastsp : Nat) (s2 : State)
    (hloop : replayBlockLoop env 0 block.queryTxs s 0 = (none, s1, lastsp))
    (hrm : removeFailedAll s1 block.failedReqs = s2) :
    (s2.pool.matchLast lastsp = true → env.commitOk = true →
      env.beginOk = true →
      ReplayBlockWithContext env s block
        = (none, ⟨s2.pool.truncate lastsp, s2.current, s2.current, s2.current,
            false, [TxCmd.savepoint s2.current], s2.commitCount + 1⟩)) ∧
    (s2.pool.matchLast lastsp = false →
      ReplayBlockWithContext env s block
        = (none,
            { s2 with
                cmpoint := s2.current,
                tx := s2.tx ++ [TxCmd.savepoint s2.current],
                pool := s2.pool.truncate lastsp })) := by
  unfold ReplayBlockWithContext
  simp only [hloop]
  rw [hrm]
  constructor
  · intro hml hco hbo
    unfold replayBlockFinalize uncCommit
    rw [if_pos hml, if_pos hco]
    simp only
    rw [if_pos hbo]
    rfl
  · intro hml
    unfold replayBlockFinalize
    rw [if_neg (by simp [hml])]
    rfl

/-- Witness for C3 at a concrete input (commit branch). -/
theorem ReplayBlock_finalize_witness :
    ReplayBlockWithContext envOk (st 5) ⟨[(reqW1, respAt 5)], []⟩
      = (none, ⟨⟨[], []⟩, 6, 6, 6, false, [TxCmd.savepoint 6], 1⟩) := by
  have h := ReplayBlock_finalize envOk (st 5) ⟨[(reqW1, respAt 5)], []⟩
    (replayBlockLoop envOk 0 [(reqW1, respAt 5)] (st 5) 0).2.1 5
    (removeFailedAll (replayBlockLoop envOk 0 [(reqW1, respAt 5)] (st 5) 0).2.1 [])
    (by decide) rfl
  exact (h.1 (by decide) rfl rfl).trans (by decide)

/-- C10: a read-typed block entry whose offset equals the current counter
executes none of its queries and does not advance the counter, yet a
savepoint is still issued and a tracker for the entry is enqueued in the
pool at the unchanged current offset. -/
theorem ReplayBlock_read_entry (env : Env) (s : State) (l i : Nat)
    (req : Request) (resp : Response) (rest : List (Request × Response))
    (hread : req.queryType = QueryType.read)
    (hoff : resp.logOffset = s.current) :
    replayEntryQueries env i 0 req.queryType req.queries s = (none, s) ∧
    replayBlockLoop env i ((req, resp) :: rest) s l =
      replayBlockLoop env (i + 1) rest
        { s with
            tx := s.tx ++ [TxCmd.savepoint s.current],
            pool := s.pool.enqueue s.current ⟨req, some resp⟩ }
        s.current := by
  have hskip : replayEntryQueries env i 0 req.queryType req.queries s
      = (none, s) := by
    rw [hread]
    exact replayEntryQueries_read env req.queries i 0 s
  refine ⟨hskip, ?_⟩
  simp only [replayBlockLoop, getID]
  rw [if_neg (by omega), if_neg (by omega), hskip]
  rfl

/-- Witness for C10 at a concrete input. -/
theorem ReplayBlock_read_entry_witness :
    replayEntryQueries envFail 0 0 reqR1.queryType reqR1.queries (st 5)
      = (none, st 5) ∧
    replayBlockLoop envFail 0 [(reqR1, respAt 5)] (st 5) 0 =
      replayBlockLoop envFail 1 []
        { st 5 with
            tx := (st 5).tx ++ [TxCmd.savepoint (st 5).current],
            pool := (st 5).pool.enqueue (st 5).current ⟨reqR1, some (respAt 5)⟩ }
        (st 5).current :=
  ReplayBlock_read_entry envFail (st 5) 0 0 reqR1 (respAt 5) [] (by decide) (by decide)

/-- A fresh state with the schema-change flag raised. -/
def stF (n : Nat) : State := ⟨newPool, n, n, n, true, [], 0⟩

/-- Witness for C7 at a concrete input (flag raised). -/
theorem readTx_frame_witness :
    (readTx envOk (stF 4) reqR1).2.current = (stF 4).current ∧
    (readTx envOk (stF 4) reqR1).2.commitCount = (stF 4).commitCount ∧
    (readTx envOk (stF 4) reqR1).2.tx
      = (stF 4).tx ++ [TxCmd.savepoint 4, TxCmd.rollbackTo 4] ∧
    (⟨4, 2, 0, 0⟩ : Response).logOffset = (stF 4).current := by
  have h := readTx_frame envOk (stF 4) reqR1
  have htx := (h.2.2.2.2.2.2.1 rfl).1
  have hok := (h.2.2.2.2.2.2.1 rfl).2 ⟨4, 2, 0, 0⟩ (by decide)
  obtain ⟨rr, h1, h2, h3⟩ := hok
  exact ⟨h.1, h.2.2.2.1, htx, h2⟩

/-- Witness for C6 at a concrete input. -/
theorem rollbackTo_roundtrip_witness :
    getID (rollbackTo (applyWrites envOk (st 5) [reqW1]) 2) = 2 ∧
    (write envOk (rollbackTo (applyWrites envOk (st 5) [reqW1]) 2) reqW2).1
      = Except.ok (⟨reqW2, none⟩, ⟨2, 0, 2, 7⟩) ∧
    (⟨2, 0, 2, 7⟩ : Response).logOffset = 2 := by
  refine ⟨(rollbackTo_roundtrip envOk (st 5) [reqW1] 2 reqW2).1, by decide, ?_⟩
  exact (rollbackTo_roundtrip envOk (st 5) [reqW1] 2 reqW2).2 ⟨reqW2, none⟩ ⟨2, 0, 2, 7⟩
    (write envOk (rollbackTo (applyWrites envOk (st 5) [reqW1]) 2) reqW2).2 (by decide)

end Xenomint
